import Mathlib

/-!
Verification of the zekrom HRRR ingestion pipeline (`src/core/ingest.py`)
against its natural-language specification.

Modelling conventions:
* Python floats are modelled as rationals (`ℚ`); a float that may be NaN is
  modelled as `Option ℚ` with `none` standing for NaN.
* Machine integers read from GRIB headers are modelled as `ℤ`.
* The external collaborators (eccodes decoding, scipy KDTree, numpy trig,
  boto3 transfer, duckdb storage) are modelled at their interfaces, exactly
  as the spec scopes them out: a decoded message is a record of typed
  attribute readers, the composite "project grid points and query the k-d
  tree" step is an abstract function parameter, and the blob store returns
  a typed fetch outcome.
* Python `datetime` stores a proleptic-Gregorian ordinal; date arithmetic
  (`- timedelta(days=i)`) is ordinal subtraction.  `daysFromCivil` /
  `civilFromDays` are the standard civil-calendar conversions.
-/

namespace Zekrom

/-- A calendar date, as carried by Python `datetime` (proleptic Gregorian). -/
structure Date where
  y : ℤ
  m : ℤ
  d : ℤ
deriving DecidableEq, Repr

/-- Days since the Unix epoch for a civil date (proleptic Gregorian),
matching Python `datetime` ordinal arithmetic. -/
def daysFromCivil (dt : Date) : ℤ :=
  let y := if dt.m ≤ 2 then dt.y - 1 else dt.y
  let era := y.fdiv 400
  let yoe := y - era * 400
  let mp := if dt.m > 2 then dt.m - 3 else dt.m + 9
  let doy := (153 * mp + 2).fdiv 5 + dt.d - 1
  let doe := yoe * 365 + yoe.fdiv 4 - yoe.fdiv 100 + doy
  era * 146097 + doe - 719468

/-- Civil date from days since the Unix epoch (inverse of `daysFromCivil`). -/
def civilFromDays (z : ℤ) : Date :=
  let z' := z + 719468
  let era := z'.fdiv 146097
  let doe := z' - era * 146097
  let yoe := (doe - doe.fdiv 1460 + doe.fdiv 36524 - doe.fdiv 146096).fdiv 365
  let y := yoe + era * 400
  let doy := doe - (365 * yoe + yoe.fdiv 4 - yoe.fdiv 100)
  let mp := (5 * doy + 2).fdiv 153
  let d := doy - (153 * mp + 2).fdiv 5 + 1
  let m := if mp < 10 then mp + 3 else mp - 9
  { y := if m ≤ 2 then y + 1 else y, m := m, d := d }

/-- `run_date_dt - timedelta(days=i)` from `ingest` (src/core/ingest.py:344). -/
def subDays (dt : Date) (i : ℕ) : Date :=
  civilFromDays (daysFromCivil dt - (i : ℤ))

/-- Python `f"{n:02d}"` for a nonnegative hour. -/
def pad2 (n : ℕ) : String :=
  if n < 10 then "0" ++ toString n else toString n

/-- Zero-pad a (nonnegative) month or day number to two digits (`%m`, `%d`). -/
def padZ2 (n : ℤ) : String :=
  if n < 10 then "0" ++ toString n else toString n

/-- Zero-pad a year to four digits (`%Y`). -/
def padZ4 (n : ℤ) : String :=
  if n < 10 then "000" ++ toString n
  else if n < 100 then "00" ++ toString n
  else if n < 1000 then "0" ++ toString n
  else toString n

/-- `process_date_dt.strftime("%Y%m%d")` (src/core/ingest.py:345). -/
def fmtDate (dt : Date) : String :=
  padZ4 dt.y ++ padZ2 dt.m ++ padZ2 dt.d

/-- Python `range(a, b)` over naturals. -/
def pyRange (a b : ℕ) : List ℕ :=
  List.range' a (b - a)

/-- The S3 key format string of src/core/ingest.py:349. -/
def mkKey (dateStr cycle fileType : String) (hour : ℕ) : String :=
  "hrrr." ++ dateStr ++ "/conus/hrrr.t" ++ cycle ++ "z." ++ fileType ++
    "f" ++ pad2 hour ++ ".grib2"

/-- The key-planning nested loops of `ingest` (src/core/ingest.py:336-352):
`num_runs_needed = 1 + floor(num_hours / 24)`; for each `i` the process date
is `run_date - i` days; for each `hour in range(f_start, f_end + 1)` one key
is appended. -/
def planKeys (runDate : Date) (numHours : ℕ) (cycle fileType : String)
    (fStart fEnd : ℕ) : List String :=
  (List.range (1 + numHours / 24)).foldl
    (fun acc i =>
      (pyRange fStart (fEnd + 1)).foldl
        (fun acc2 h =>
          acc2 ++ [mkKey (fmtDate (subDays runDate i)) cycle fileType h])
        acc)
    []

/-! ## Spatial resolver and grid cache (`_get_grid_details`, src/core/ingest.py:19-102) -/

/-- A projected point, `latlon_to_xyz(lat, lon)` output. The projection's
numeric values are irrelevant to the cache discipline; points are opaque
triples. -/
abbrev Point3 := ℚ × ℚ × ℚ

/-- The composite external numeric step of src/core/ingest.py:67-69:
`latlon_to_xyz` over the flattened grid arrays, `KDTree` construction, and
`kdtree.query(target_points_xyz, k=1)`. numpy trig and scipy's k-d tree are
external collaborators, so this step is a parameter of the model: given the
flattened (adjusted) grid latitudes/longitudes and the projected targets it
returns one flat grid index per target. -/
abbrev NearestQuery := List ℚ → List ℚ → List Point3 → List ℕ

/-- The header fields read from the first GRIB message
(src/core/ingest.py:50-54). -/
structure GridMeta where
  ni : ℤ
  nj : ℤ
  templateNum : ℤ
  lat1 : ℚ
  lon1 : ℚ
deriving DecidableEq, Repr

/-- Fixed-point rounding to four decimals, modelling the `:.4f` formatting
used in the grid id string (src/core/ingest.py:55). -/
def fmt4 (q : ℚ) : ℤ := ⌊q * 10000 + 1 / 2⌋

/-- The grid signature: the components of the f-string
`f"{grid_dt}-{grid_ni}-{grid_nj}-{grid_lat1:.4f}-{grid_lon1:.4f}"`
(src/core/ingest.py:55), which is injective on these components. -/
abbrev GridSig := ℤ × ℤ × ℤ × ℤ × ℤ

/-- `current_file_grid_id` computed from the peeked header. -/
def gridSignature (g : GridMeta) : GridSig :=
  (g.templateNum, g.ni, g.nj, fmt4 g.lat1, fmt4 g.lon1)

/-- The grid geometry readable from a file's first message: header fields
plus the flattened `latitudes` / `longitudes` arrays
(src/core/ingest.py:60-61). -/
structure GridFile where
  meta : GridMeta
  lats : List ℚ
  lons : List ℚ
deriving DecidableEq, Repr

/-- One `grid_cache` value: `{'lats': ..., 'lons': ..., 'indices': ...}`
(src/core/ingest.py:70-74). -/
structure GridEntry where
  lats : List ℚ
  lons : List ℚ
  indices : List ℕ
deriving DecidableEq, Repr

/-- The `grid_cache` dict, keyed by grid signature. Keys are inserted only
when absent, so an association list is an exact model. -/
abbrev GridCache := List (GridSig × GridEntry)

/-- Python `sig in grid_cache` / `grid_cache[sig]`. -/
def cacheFind (c : GridCache) (s : GridSig) : Option GridEntry :=
  (c.find? (fun p => p.1 = s)).map (fun p => p.2)

/-- Python `grid_cache[sig] = entry` for an absent key. -/
def cacheInsert (c : GridCache) (s : GridSig) (e : GridEntry) : GridCache :=
  c ++ [(s, e)]

/-- The longitude adjustment `grid_lons_flat[grid_lons_flat > 180] -= 360`
(src/core/ingest.py:66), applied pointwise. -/
def adjustLon (q : ℚ) : ℚ :=
  if q > 180 then q - 360 else q

/-- The outcome of `_get_grid_details` together with the updated cache and
an observation of whether the spatial-index build/query step ran. -/
structure ResolveResult where
  sig : GridSig
  ok : Bool
  indices : Option (List ℕ)
  lats : Option (List ℚ)
  lons : Option (List ℚ)
  cache : GridCache
  built : Bool
deriving DecidableEq, Repr

/-- `_get_grid_details` (src/core/ingest.py:55-92) for a readable first
message: compute the signature; on a cache miss with valid coordinate
arrays (`0 < lats.size == lons.size`), adjust longitudes, run the
nearest-neighbour step, and cache the entry; then return the cached entry
when the calculation succeeded and the signature is present. -/
def getGridDetails (nq : NearestQuery) (f : GridFile) (targets : List Point3)
    (cache : GridCache) : ResolveResult :=
  let sig := gridSignature f.meta
  let step : GridCache × Bool × Bool :=
    match cacheFind cache sig with
    | none =>
      if 0 < f.lats.length ∧ f.lats.length = f.lons.length then
        let lonsFlat := f.lons.map adjustLon
        let idxs := nq f.lats lonsFlat targets
        (cacheInsert cache sig ⟨f.lats, lonsFlat, idxs⟩, true, true)
      else
        (cache, false, false)
    | some _ => (cache, false, true)
  match step.2.2, cacheFind step.1 sig with
  | true, some e =>
    ⟨sig, true, some e.indices, some e.lats, some e.lons, step.1, step.2.1⟩
  | true, none => ⟨sig, false, none, none, none, step.1, step.2.1⟩
  | false, _ => ⟨sig, false, none, none, none, step.1, step.2.1⟩

/-- Resolving a sequence of files against one evolving cache (one call of
`_get_grid_details` per processed file, cache threaded through). -/
def runResolve (nq : NearestQuery) (targets : List Point3) :
    GridCache → List GridFile → List ResolveResult
  | _, [] => []
  | cache, f :: fs =>
    let r := getGridDetails nq f targets cache
    r :: runResolve nq targets r.cache fs

/-- How many resolutions in a run executed the index build/query step for
signature `s`. -/
def buildsFor (s : GridSig) (rs : List ResolveResult) : ℕ :=
  rs.countP (fun r => decide (r.sig = s ∧ r.built = true))

/-! ## Variable matching and row extraction
(`_extract_data_from_messages`, src/core/ingest.py:104-189) -/

/-- An expected value in a target-variable dict: the config holds strings,
ints and floats, dispatched by `isinstance` (src/core/ingest.py:144-146). -/
inductive TVal where
  | s (v : String)
  | i (v : ℤ)
  | f (v : ℚ)
deriving DecidableEq, Repr

/-- A decoded GRIB message handle, at the eccodes interface the matcher and
extractor use: `codes_is_defined`, the typed getters (returning `none` where
eccodes would raise one of the caught key/type/encoding errors),
`codes_get_values` flattened (with `none` for NaN entries), and the
`date`/`time`/`step` header longs. -/
structure Message where
  isDefined : String → Bool
  getString : String → Option String
  getLong : String → Option ℤ
  getDouble : String → Option ℚ
  values : List (Option ℚ)
  dateVal : ℤ
  timeVal : ℤ
  stepVal : ℤ

/-- One target-variable dict from the config: its `user_name` plus the
remaining key/value items, in dict (insertion) order. The matching loop
iterates the items and skips the `user_name` key by name
(src/core/ingest.py:139-140). -/
structure VariableSpec where
  userName : String
  fields : List (String × TVal)
deriving Repr

/-- One attribute check of the matching loop (src/core/ingest.py:141-150):
the key must be defined on the message (`codes_is_defined`) and the value
read by the getter chosen from the expected value's type must equal the
expected value; a failed read (a caught eccodes error, modelled as `none`)
fails the check. -/
def attrCheck (m : Message) (k : String) (tv : TVal) : Bool :=
  if m.isDefined k then
    match tv with
    | .s v =>
      match m.getString k with
      | some w => decide (w = v)
      | none => false
    | .i v =>
      match m.getLong k with
      | some w => decide (w = v)
      | none => false
    | .f v =>
      match m.getDouble k with
      | some w => decide (w = v)
      | none => false
  else false

/-- The attribute-matching inner loop (src/core/ingest.py:138-150): every
item except `user_name` must pass `attrCheck`; the first failing item stops
the scan with `matched = False`. -/
def attrsMatch (m : Message) : List (String × TVal) → Bool
  | [] => true
  | (k, tv) :: rest =>
    if k = "user_name" then attrsMatch m rest
    else if attrCheck m k tv then attrsMatch m rest else false

/-- The spec's wording of a single attribute check (spec section 4.3): the
declared attribute is defined on the message and the typed read returns
exactly the expected value. -/
def attrOk (m : Message) (k : String) (tv : TVal) : Prop :=
  m.isDefined k = true ∧
    match tv with
    | .s v => m.getString k = some v
    | .i v => m.getLong k = some v
    | .f v => m.getDouble k = some v

instance (m : Message) (k : String) (tv : TVal) : Decidable (attrOk m k tv) := by
  unfold attrOk
  cases tv <;> exact instDecidableAnd

/-- One row prepared for insertion (src/core/ingest.py:173): timestamps are
modelled as minutes since the Unix epoch. -/
structure Row where
  validTime : ℤ
  runTime : ℤ
  lat : ℚ
  lon : ℚ
  variable_ : String
  value : ℚ
  src : String
deriving DecidableEq, Repr

/-- `datetime.strptime(f"{date_val}{time_val:04d}", "%Y%m%d%H%M")` as
minutes since the epoch (src/core/ingest.py:160-163). -/
def runTimeUtc (m : Message) : ℤ :=
  let y := m.dateVal.fdiv 10000
  let mo := (m.dateVal.fdiv 100).fmod 100
  let d := m.dateVal.fmod 100
  1440 * daysFromCivil ⟨y, mo, d⟩ + 60 * m.timeVal.fdiv 100 + m.timeVal.fmod 100

/-- `run_dt_utc + timedelta(hours=step_val)` (src/core/ingest.py:164). -/
def validTimeUtc (m : Message) : ℤ :=
  runTimeUtc m + 60 * m.stepVal

/-- The per-target-point extraction loop (src/core/ingest.py:166-174): for
each resolved flat index, read the grid coordinates and the value at that
index; skip the point when the value is NaN, else append a row. An
out-of-range index models the IndexError eccodes/numpy would raise, which
the per-entry handler (line 176) catches after the rows appended so far. -/
def extractRows (m : Message) (name : String) (lats lons : List ℚ)
    (src : String) : List ℕ → List Row
  | [] => []
  | idx :: rest =>
    match lats.get? idx, lons.get? idx, m.values.get? idx with
    | some la, some lo, some v? =>
      match v? with
      | none => extractRows m name lats lons src rest
      | some v =>
        ⟨validTimeUtc m, runTimeUtc m, la, lo, name, v, src⟩ ::
          extractRows m name lats lons src rest
    | _, _, _ => []

/-- The per-message loop over the catalog (src/core/ingest.py:136-178):
scan the target variables in order; on a match record the `user_name`, then
either `continue` to the next catalog entry when the flat value array size
differs from the grid size, or extract rows and `break`. Returns the rows
appended and the `user_name`s recorded for this message. -/
def processTargets (m : Message) (indices : List ℕ) (lats lons : List ℚ)
    (src : String) : List VariableSpec → List Row × List String
  | [] => ([], [])
  | t :: rest =>
    if attrsMatch m t.fields then
      if m.values.length ≠ lats.length then
        let res := processTargets m indices lats lons src rest
        (res.1, t.userName :: res.2)
      else
        (extractRows m t.userName lats lons src indices, [t.userName])
    else processTargets m indices lats lons src rest

/-- One step of `codes_grib_new_from_file` iteration: either a decodable
message, or an exception escaping the per-message body (which the message
loop does not catch, src/core/ingest.py:129-187). -/
inductive MsgEvent where
  | msg (m : Message)
  | err

/-- `_extract_data_from_messages` (src/core/ingest.py:104-189): iterate the
messages, accumulating rows, the scanned count and the matched-variable
names; an escaping exception is re-raised (src/core/ingest.py:182-187),
which discards the accumulated state. -/
def extractMessages (catalog : List VariableSpec) (indices : List ℕ)
    (lats lons : List ℚ) (src : String) :
    List MsgEvent → Except Unit (List Row × ℕ × List String)
  | [] => .ok ([], 0, [])
  | .err :: _ => .error ()
  | .msg m :: rest =>
    let res := processTargets m indices lats lons src catalog
    match extractMessages catalog indices lats lons src rest with
    | .ok (rows, n, found) => .ok (res.1 ++ rows, n + 1, res.2 ++ found)
    | .error e => .error e

/-! ## Per-object orchestration (`process_grib_file`, src/core/ingest.py:192-294)
and the run loop (`ingest`, src/core/ingest.py:296-419) -/

/-- What the downloaded object yields to the decoder: the grid geometry
peeked from the first message (`none` when no first message can be read or
the peek raises, src/core/ingest.py:44-48,94-96) and the message sequence
seen by the extraction loop. -/
structure GribContent where
  peek : Option GridFile
  events : List MsgEvent

/-- The typed outcome of `s3_client.download_file` at the blob-store
collaborator interface: success, a `ClientError` whose code is `NoSuchKey`
(src/core/ingest.py:279), any other `ClientError` (src/core/ingest.py:282),
or a non-`ClientError` exception during setup/download
(src/core/ingest.py:285). -/
inductive Fetch where
  | ok (content : GribContent)
  | noSuchKey
  | clientError
  | otherError

/-- The five per-file statuses of src/core/ingest.py:212. -/
inductive FileStatus where
  | processed
  | skipped_no_grid
  | not_found
  | download_error
  | processing_error
deriving DecidableEq, Repr

/-- The per-file result dict (src/core/ingest.py:271-276). -/
structure FileResult where
  scanned : ℕ
  rowsInserted : ℕ
  status : FileStatus
  found : List String
deriving DecidableEq, Repr

/-- `f"s3://{s3_bucket}/{s3_key}"` (src/core/ingest.py:234). -/
def mkSrcPath (bucket key : String) : String :=
  "s3://" ++ bucket ++ "/" ++ key

/-- `process_grib_file` (src/core/ingest.py:192-294): classify fetch
failures; on success resolve the grid (possibly from cache), and when the
grid is available run the message extraction; an exception escaping the
extraction yields `processing_error` with the counters still at their
initial zeros and nothing submitted to the database. Returns the result
dict, the updated grid cache, and the row batch submitted via
`executemany` (empty when no insert is attempted). The storage collaborator
is modelled as accepting the batch. -/
def processGribFile (nq : NearestQuery) (fetch : Fetch)
    (targets : List Point3) (catalog : List VariableSpec)
    (cache : GridCache) (srcPath : String) :
    FileResult × GridCache × List Row :=
  match fetch with
  | .noSuchKey => (⟨0, 0, .not_found, []⟩, cache, [])
  | .clientError => (⟨0, 0, .download_error, []⟩, cache, [])
  | .otherError => (⟨0, 0, .processing_error, []⟩, cache, [])
  | .ok content =>
    match content.peek with
    | none => (⟨0, 0, .skipped_no_grid, []⟩, cache, [])
    | some gf =>
      let r := getGridDetails nq gf targets cache
      match r.indices, r.lats, r.lons with
      | some idxs, some lats, some lons =>
        match extractMessages catalog idxs lats lons srcPath content.events with
        | .ok (rows, n, found) =>
          if rows.isEmpty then (⟨n, 0, .processed, found⟩, r.cache, [])
          else (⟨n, rows.length, .processed, found⟩, r.cache, rows)
        | .error _ => (⟨0, 0, .processing_error, []⟩, r.cache, [])
      | _, _, _ => (⟨0, 0, .skipped_no_grid, []⟩, r.cache, [])

/-- The run-level accumulators of `ingest` (src/core/ingest.py:296-305). -/
structure Counters where
  totalRows : ℕ
  totalMsgs : ℕ
  downloaded : ℕ
  processedOk : ℕ
  skippedNoGrid : ℕ
  notFound : ℕ
  downloadErrors : ℕ
  processingErrors : ℕ
  found : List String
deriving DecidableEq, Repr

/-- All accumulators start at zero (src/core/ingest.py:297-305). -/
def zeroCounters : Counters :=
  ⟨0, 0, 0, 0, 0, 0, 0, 0, []⟩

/-- The per-result accumulator updates of src/core/ingest.py:375-391. -/
def stepCounters (c : Counters) (r : FileResult) : Counters :=
  let c1 := { c with
    totalMsgs := c.totalMsgs + r.scanned,
    totalRows := c.totalRows + r.rowsInserted,
    found := c.found ++ r.found }
  match r.status with
  | .processed =>
    { c1 with downloaded := c1.downloaded + 1, processedOk := c1.processedOk + 1 }
  | .skipped_no_grid =>
    { c1 with downloaded := c1.downloaded + 1, skippedNoGrid := c1.skippedNoGrid + 1 }
  | .not_found => { c1 with notFound := c1.notFound + 1 }
  | .download_error => { c1 with downloadErrors := c1.downloadErrors + 1 }
  | .processing_error =>
    { c1 with downloaded := c1.downloaded + 1,
              processingErrors := c1.processingErrors + 1 }

/-- The per-key loop of `ingest` (src/core/ingest.py:364-391): every
planned key is fetched and processed, the cache and the accumulators are
threaded through, and one result is produced per key whatever its status. -/
def ingestLoop (nq : NearestQuery) (fetch : String → Fetch)
    (targets : List Point3) (catalog : List VariableSpec) (bucket : String) :
    List String → GridCache → Counters → List FileResult × Counters × GridCache
  | [], cache, cnt => ([], cnt, cache)
  | k :: ks, cache, cnt =>
    let pr := processGribFile nq (fetch k) targets catalog cache (mkSrcPath bucket k)
    let rest := ingestLoop nq fetch targets catalog bucket ks pr.2.1 (stepCounters cnt pr.1)
    (pr.1 :: rest.1, rest.2.1, rest.2.2)

/-- How a run ends: `sys.exit(code)` before the loop, or normal completion
with the final accumulators. -/
inductive IngestOutcome where
  | exited (code : ℕ)
  | completed (cnt : Counters)

/-- Whether an outcome signals an error to the calling process: a normal
completion or an exit status of 0 is a success signal. -/
def signalsError : IngestOutcome → Prop
  | .exited code => code ≠ 0
  | .completed _ => False

/-- `ingest` (src/core/ingest.py:296-400), after table creation and client
setup: plan the keys; when no key was generated, warn and `sys.exit(0)`
(src/core/ingest.py:358-360) before touching any object; otherwise run the
per-key loop over every planned key. The second component counts the
download attempts made. -/
def ingestRun (nq : NearestQuery) (fetch : String → Fetch)
    (targets : List Point3) (catalog : List VariableSpec) (bucket : String)
    (runDate : Date) (numHours : ℕ) (cycle fileType : String)
    (fStart fEnd : ℕ) : IngestOutcome × ℕ :=
  let keys := planKeys runDate numHours cycle fileType fStart fEnd
  if keys.isEmpty then (.exited 0, 0)
  else
    let res := ingestLoop nq fetch targets catalog bucket keys [] zeroCounters
    (.completed res.2.1, keys.length)

/-! ## Helper lemmas -/

theorem foldl_append_singleton {α β : Type} (f : α → β) :
    ∀ (l : List α) (acc : List β),
      l.foldl (fun a x => a ++ [f x]) acc = acc ++ l.map f := by
  intro l
  induction l with
  | nil => intro acc; simp
  | cons x xs ih => intro acc; simp [ih]

theorem foldl_append_bind {α β : Type} (g : α → List β) :
    ∀ (l : List α) (acc : List β),
      l.foldl (fun a x => a ++ g x) acc = acc ++ l.flatMap g := by
  intro l
  induction l with
  | nil => intro acc; simp
  | cons x xs ih => intro acc; simp [ih]

theorem length_bind_const {α β : Type} (g : α → List β) (k : ℕ)
    (hg : ∀ a, (g a).length = k) :
    ∀ l : List α, (l.flatMap g).length = l.length * k := by
  intro l
  induction l with
  | nil => simp
  | cons x xs ih => simp [ih, hg, Nat.succ_mul, Nat.add_comm]

/-- **C5** — For lookback `num_hours` and run date `D`, key planning
enumerates exactly `1 + floor(num_hours / 24)` run dates `D`, `D - 1` day,
`D - 2` days, ... in order of decreasing recency, and for each run date
emits one key per forecast hour from `f_start` to `f_end` inclusive in
increasing order, of the form
`hrrr.<YYYYMMDD>/conus/hrrr.t<cycle>z.<fileType>f<HH>.grib2` with the
forecast hour zero-padded to two digits. -/
theorem c5_object_key_plan (rd : Date) (nh : ℕ) (cy ft : String) (fs fe : ℕ) :
    planKeys rd nh cy ft fs fe =
      (List.range (1 + nh / 24)).flatMap (fun i =>
        (List.range' fs (fe + 1 - fs)).map (fun h =>
          "hrrr." ++ fmtDate (subDays rd i) ++ "/conus/hrrr.t" ++ cy ++
            "z." ++ ft ++ "f" ++ pad2 h ++ ".grib2")) ∧
    (planKeys rd nh cy ft fs fe).length = (1 + nh / 24) * (fe + 1 - fs) := by
  have hplan : planKeys rd nh cy ft fs fe =
      (List.range (1 + nh / 24)).flatMap (fun i =>
        (List.range' fs (fe + 1 - fs)).map (fun h =>
          "hrrr." ++ fmtDate (subDays rd i) ++ "/conus/hrrr.t" ++ cy ++
            "z." ++ ft ++ "f" ++ pad2 h ++ ".grib2")) := by
    unfold planKeys pyRange mkKey
    simp only [foldl_append_singleton]
    rw [foldl_append_bind]
    simp
  refine ⟨hplan, ?_⟩
  rw [hplan, length_bind_const _ (fe + 1 - fs) (by intro a; simp),
    List.length_range]

theorem cacheFind_append (c₁ c₂ : GridCache) (s : GridSig) :
    cacheFind (c₁ ++ c₂) s = (cacheFind c₁ s).or (cacheFind c₂ s) := by
  unfold cacheFind
  rw [List.find?_append]
  cases List.find? (fun p => decide (p.1 = s)) c₁ <;> simp

theorem cacheFind_singleton (s : GridSig) (e : GridEntry) :
    cacheFind [(s, e)] s = some e := by
  unfold cacheFind
  rw [List.find?_cons_of_pos _ (by simp)]
  rfl

theorem cacheFind_insert_self (c : GridCache) (s : GridSig) (e : GridEntry)
    (h : cacheFind c s = none) : cacheFind (cacheInsert c s e) s = some e := by
  unfold cacheInsert
  rw [cacheFind_append, h, cacheFind_singleton]
  rfl

theorem cacheFind_insert_preserve (c : GridCache) (s s' : GridSig)
    (e e' : GridEntry) (h : cacheFind c s' = some e') :
    cacheFind (cacheInsert c s e) s' = some e' := by
  unfold cacheInsert
  rw [cacheFind_append, h]
  rfl

theorem getGridDetails_hit (nq : NearestQuery) (targets : List Point3)
    (f : GridFile) (c : GridCache) (e : GridEntry)
    (h : cacheFind c (gridSignature f.meta) = some e) :
    getGridDetails nq f targets c =
      ⟨gridSignature f.meta, true, some e.indices, some e.lats, some e.lons,
        c, false⟩ := by
  unfold getGridDetails
  simp only [h]

theorem getGridDetails_miss_valid (nq : NearestQuery) (targets : List Point3)
    (f : GridFile) (c : GridCache)
    (h : cacheFind c (gridSignature f.meta) = none)
    (hlen : 0 < f.lats.length ∧ f.lats.length = f.lons.length) :
    getGridDetails nq f targets c =
      ⟨gridSignature f.meta, true,
        some (nq f.lats (f.lons.map adjustLon) targets),
        some f.lats, some (f.lons.map adjustLon),
        cacheInsert c (gridSignature f.meta)
          ⟨f.lats, f.lons.map adjustLon,
            nq f.lats (f.lons.map adjustLon) targets⟩,
        true⟩ := by
  unfold getGridDetails
  simp only [h, if_pos hlen]
  rw [cacheFind_insert_self c (gridSignature f.meta) _ h]

theorem getGridDetails_miss_invalid (nq : NearestQuery) (targets : List Point3)
    (f : GridFile) (c : GridCache)
    (h : cacheFind c (gridSignature f.meta) = none)
    (hlen : ¬(0 < f.lats.length ∧ f.lats.length = f.lons.length)) :
    getGridDetails nq f targets c =
      ⟨gridSignature f.meta, false, none, none, none, c, false⟩ := by
  unfold getGridDetails
  simp only [h, if_neg hlen]

theorem getGridDetails_sig (nq : NearestQuery) (targets : List Point3)
    (f : GridFile) (c : GridCache) :
    (getGridDetails nq f targets c).sig = gridSignature f.meta := by
  rcases hfind : cacheFind c (gridSignature f.meta) with _ | e
  · by_cases hlen : 0 < f.lats.length ∧ f.lats.length = f.lons.length
    · rw [getGridDetails_miss_valid nq targets f c hfind hlen]
    · rw [getGridDetails_miss_invalid nq targets f c hfind hlen]
  · rw [getGridDetails_hit nq targets f c e hfind]

theorem getGridDetails_cache_mono (nq : NearestQuery) (targets : List Point3)
    (f : GridFile) (c : GridCache) (s : GridSig) (e : GridEntry)
    (h : cacheFind c s = some e) :
    cacheFind (getGridDetails nq f targets c).cache s = some e := by
  rcases hfind : cacheFind c (gridSignature f.meta) with _ | e₀
  · by_cases hlen : 0 < f.lats.length ∧ f.lats.length = f.lons.length
    · rw [getGridDetails_miss_valid nq targets f c hfind hlen]
      exact cacheFind_insert_preserve c _ s _ e h
    · rw [getGridDetails_miss_invalid nq targets f c hfind hlen]
      exact h
  · rw [getGridDetails_hit nq targets f c e₀ hfind]
    exact h

theorem getGridDetails_built (nq : NearestQuery) (targets : List Point3)
    (f : GridFile) (c : GridCache)
    (hb : (getGridDetails nq f targets c).built = true) :
    cacheFind c (gridSignature f.meta) = none ∧
    cacheFind (getGridDetails nq f targets c).cache (gridSignature f.meta) =
      some ⟨f.lats, f.lons.map adjustLon,
        nq f.lats (f.lons.map adjustLon) targets⟩ := by
  rcases hfind : cacheFind c (gridSignature f.meta) with _ | e₀
  · by_cases hlen : 0 < f.lats.length ∧ f.lats.length = f.lons.length
    · refine ⟨rfl, ?_⟩
      rw [getGridDetails_miss_valid nq targets f c hfind hlen]
      exact cacheFind_insert_self c _ _ hfind
    · rw [getGridDetails_miss_invalid nq targets f c hfind hlen] at hb
      exact absurd hb (by simp)
  · rw [getGridDetails_hit nq targets f c e₀ hfind] at hb
    exact absurd hb (by simp)

theorem getGridDetails_ok_indices (nq : NearestQuery) (targets : List Point3)
    (f : GridFile) (c : GridCache)
    (hok : (getGridDetails nq f targets c).ok = true) :
    ∃ e, cacheFind (getGridDetails nq f targets c).cache
        (gridSignature f.meta) = some e ∧
      (getGridDetails nq f targets c).indices = some e.indices := by
  rcases hfind : cacheFind c (gridSignature f.meta) with _ | e₀
  · by_cases hlen : 0 < f.lats.length ∧ f.lats.length = f.lons.length
    · rw [getGridDetails_miss_valid nq targets f c hfind hlen]
      exact ⟨_, cacheFind_insert_self c _ _ hfind, rfl⟩
    · rw [getGridDetails_miss_invalid nq targets f c hfind hlen] at hok
      exact absurd hok (by simp)
  · rw [getGridDetails_hit nq targets f c e₀ hfind]
    exact ⟨e₀, hfind, rfl⟩

theorem runResolve_no_build (nq : NearestQuery) (targets : List Point3)
    (s : GridSig) :
    ∀ (files : List GridFile) (c : GridCache), (cacheFind c s).isSome →
      buildsFor s (runResolve nq targets c files) = 0 := by
  intro files
  induction files with
  | nil => intro c _; rfl
  | cons f fs ih =>
    intro c h
    obtain ⟨e, he⟩ := Option.isSome_iff_exists.mp h
    have hhead : ¬((getGridDetails nq f targets c).sig = s ∧
        (getGridDetails nq f targets c).built = true) := by
      rintro ⟨hsig, hbuilt⟩
      have hnone := (getGridDetails_built nq targets f c hbuilt).1
      rw [← getGridDetails_sig nq targets f c, hsig] at hnone
      rw [hnone] at he
      exact Option.noConfusion he
    have hrest : buildsFor s (runResolve nq targets
        (getGridDetails nq f targets c).cache fs) = 0 := by
      refine ih _ ?_
      rw [getGridDetails_cache_mono nq targets f c s e he]
      rfl
    simp only [runResolve, buildsFor, List.countP_cons, decide_eq_true_eq]
    simp only [buildsFor] at hrest
    rw [hrest, if_neg hhead]

theorem runResolve_builds_le_one (nq : NearestQuery) (targets : List Point3)
    (s : GridSig) :
    ∀ (files : List GridFile) (c : GridCache),
      buildsFor s (runResolve nq targets c files) ≤ 1 := by
  intro files
  induction files with
  | nil => intro c; exact Nat.zero_le 1
  | cons f fs ih =>
    intro c
    by_cases hb : ((getGridDetails nq f targets c).sig = s ∧
        (getGridDetails nq f targets c).built = true)
    · have h2 := (getGridDetails_built nq targets f c hb.2).2
      have hsig := getGridDetails_sig nq targets f c
      have hsome : (cacheFind (getGridDetails nq f targets c).cache s).isSome := by
        rw [← hb.1, hsig, h2]
        rfl
      have hzero := runResolve_no_build nq targets s fs _ hsome
      simp only [runResolve, buildsFor, List.countP_cons, decide_eq_true_eq]
      simp only [buildsFor] at hzero
      rw [hzero, if_pos hb]
    · have hrest := ih (getGridDetails nq f targets c).cache
      simp only [runResolve, buildsFor, List.countP_cons, decide_eq_true_eq]
      simp only [buildsFor] at hrest
      rw [if_neg hb]
      simpa using hrest

/-- **C1** — For every grid whose computed GridSignature is already present
in the GridCache, resolving that grid again with the same grid arrays and
the same target points returns exactly the nearest-index sequence stored on
the first encounter, taken from the cache (no index build, cache
unchanged); a successful resolution always returns the indices of the entry
cached under its signature; and the spatial index build and
nearest-neighbor query are performed at most once per distinct
GridSignature per run. -/
theorem c1_grid_cache_reuse (nq : NearestQuery) (targets : List Point3) :
    (∀ (f : GridFile) (c : GridCache) (e : GridEntry),
      cacheFind c (gridSignature f.meta) = some e →
      getGridDetails nq f targets c =
        ⟨gridSignature f.meta, true, some e.indices, some e.lats,
          some e.lons, c, false⟩) ∧
    (∀ (f : GridFile) (c : GridCache),
      (getGridDetails nq f targets c).ok = true →
      ∃ e, cacheFind (getGridDetails nq f targets c).cache
          (gridSignature f.meta) = some e ∧
        (getGridDetails nq f targets c).indices = some e.indices) ∧
    (∀ (c : GridCache) (files : List GridFile) (s : GridSig),
      buildsFor s (runResolve nq targets c files) ≤ 1) :=
  ⟨fun f c e h => getGridDetails_hit nq targets f c e h,
   fun f c h => getGridDetails_ok_indices nq targets f c h,
   fun c files s => runResolve_builds_le_one nq targets s files c⟩

/-- A trivial instantiation of the external projection/k-d-tree step, used
only to evaluate the model on concrete inputs. -/
def nq0 : NearestQuery := fun _ _ targets => targets.map (fun _ => 0)

def gf0 : GridFile := ⟨⟨1, 1, 0, 0, 0⟩, [0], [0]⟩

def cache0 : GridCache := (getGridDetails nq0 gf0 [] []).cache

def entry0 : GridEntry := ⟨[0], [0], []⟩

/-- Witness for C1: after a first resolution of `gf0` populated the cache,
a second resolution is a pure cache hit returning the stored indices. -/
theorem c1_grid_cache_reuse_witness :
    cacheFind cache0 (gridSignature gf0.meta) = some entry0 ∧
    getGridDetails nq0 gf0 [] cache0 =
      ⟨gridSignature gf0.meta, true, some entry0.indices, some entry0.lats,
        some entry0.lons, cache0, false⟩ := by
  have hfind : cacheFind cache0 (gridSignature gf0.meta) = some entry0 := by
    have h1 := getGridDetails_miss_valid nq0 [] gf0 [] rfl (by decide)
    have he : (⟨gf0.lats, gf0.lons.map adjustLon,
        nq0 gf0.lats (gf0.lons.map adjustLon) []⟩ : GridEntry) = entry0 := by
      unfold entry0 gf0 adjustLon nq0
      norm_num
    unfold cache0
    rw [h1]
    exact he ▸ cacheFind_insert_self [] (gridSignature gf0.meta) _ rfl
  exact ⟨hfind, (c1_grid_cache_reuse nq0 []).1 gf0 cache0 entry0 hfind⟩

def gf7 : GridFile := ⟨⟨1, 1, 0, 0, 0⟩, [0], [600]⟩

/-- **C7** (counterexample) — The claim asserts every cached longitude lies
in [-180, 180]. For an input longitude of 600 the code stores 600 - 360 =
240, outside that interval, so the invariant as stated fails. -/
theorem c7_lon_normalization_counterexample :
    (getGridDetails nq0 gf7 [] []).lons = some [(240 : ℚ)] ∧
    cacheFind (getGridDetails nq0 gf7 [] []).cache (gridSignature gf7.meta) =
      some ⟨[0], [(240 : ℚ)], []⟩ ∧
    ¬((240 : ℚ) ≤ 180) := by
  have h1 := getGridDetails_miss_valid nq0 [] gf7 [] rfl (by decide)
  have hlon : gf7.lons.map adjustLon = [(240 : ℚ)] := by
    show [adjustLon 600] = [(240 : ℚ)]
    unfold adjustLon
    norm_num
  refine ⟨?_, ?_, by norm_num⟩
  · rw [h1, hlon]
  · rw [h1]
    have h2 := cacheFind_insert_self [] (gridSignature gf7.meta)
      ⟨gf7.lats, gf7.lons.map adjustLon,
        nq0 gf7.lats (gf7.lons.map adjustLon) []⟩ rfl
    rw [h2, hlon]
    rfl

/-- **C7** (amended) — After resolution stores a GridCacheEntry, the cached
flatLongitudes are the input longitudes with 360 subtracted from each value
strictly greater than 180 and all others unchanged; provided every input
longitude lies in [-180, 540] (in particular for the GRIB-conventional
[0, 360] range), every cached longitude lies in [-180, 180]. -/
theorem c7_lon_normalization_amended (nq : NearestQuery)
    (targets : List Point3) (f : GridFile) (c : GridCache)
    (hrange : ∀ q ∈ f.lons, -180 ≤ q ∧ q ≤ 540)
    (hb : (getGridDetails nq f targets c).built = true) :
    ∃ e, cacheFind (getGridDetails nq f targets c).cache
        (gridSignature f.meta) = some e ∧
      e.lons = f.lons.map (fun q => if q > 180 then q - 360 else q) ∧
      ∀ q ∈ e.lons, -180 ≤ q ∧ q ≤ 180 := by
  obtain ⟨-, hstore⟩ := getGridDetails_built nq targets f c hb
  refine ⟨_, hstore, rfl, ?_⟩
  intro q hq
  obtain ⟨q0, hq0, rfl⟩ := List.mem_map.mp hq
  obtain ⟨hlo, hhi⟩ := hrange q0 hq0
  unfold adjustLon
  by_cases hgt : q0 > 180
  · rw [if_pos hgt]
    constructor <;> linarith
  · rw [if_neg hgt]
    push_neg at hgt
    exact ⟨hlo, hgt⟩

def gf7w : GridFile := ⟨⟨1, 1, 0, 0, 0⟩, [0, 0], [190, -10]⟩

/-- Witness for the amended C7 at a concrete grid with one longitude above
180 and one below. -/
theorem c7_lon_normalization_amended_witness :
    ∃ e, cacheFind (getGridDetails nq0 gf7w [] []).cache
        (gridSignature gf7w.meta) = some e ∧
      e.lons = gf7w.lons.map (fun q => if q > 180 then q - 360 else q) ∧
      ∀ q ∈ e.lons, -180 ≤ q ∧ q ≤ 180 := by
  refine c7_lon_normalization_amended nq0 [] gf7w [] ?_ ?_
  · intro q hq
    have : q = (190 : ℚ) ∨ q = (-10 : ℚ) := by
      simpa [gf7w] using hq
    rcases this with rfl | rfl <;> norm_num
  · rw [getGridDetails_miss_valid nq0 [] gf7w [] rfl (by decide)]

theorem attrCheck_iff (m : Message) (k : String) (tv : TVal) :
    attrCheck m k tv = true ↔ attrOk m k tv := by
  unfold attrCheck attrOk
  by_cases hd : m.isDefined k
  · cases tv with
    | s v => cases hget : m.getString k <;> simp [hd, hget]
    | i v => cases hget : m.getLong k <;> simp [hd, hget]
    | f v => cases hget : m.getDouble k <;> simp [hd, hget]
  · cases tv <;> simp [hd]

theorem attrsMatch_iff (m : Message) :
    ∀ fields : List (String × TVal),
      attrsMatch m fields = true ↔
        ∀ p ∈ fields, p.1 ≠ "user_name" → attrOk m p.1 p.2 := by
  intro fields
  induction fields with
  | nil => simp [attrsMatch]
  | cons p rest ih =>
    obtain ⟨k, tv⟩ := p
    rw [List.forall_mem_cons]
    by_cases hk : k = "user_name"
    · subst hk
      have hstep : attrsMatch m (("user_name", tv) :: rest) =
          attrsMatch m rest := by
        simp [attrsMatch]
      rw [hstep, ih]
      simp
    · by_cases hc : attrCheck m k tv
      · have hstep : attrsMatch m ((k, tv) :: rest) = attrsMatch m rest := by
          simp [attrsMatch, hk, hc]
        rw [hstep, ih]
        constructor
        · intro h
          exact ⟨fun _ => (attrCheck_iff m k tv).mp hc, h⟩
        · exact And.right
      · have hc' : attrCheck m k tv = false := by simpa using hc
        have hstep : attrsMatch m ((k, tv) :: rest) = false := by
          simp [attrsMatch, hk, hc']
        rw [hstep]
        constructor
        · intro h
          cases h
        · rintro ⟨h1, -⟩
          exact absurd ((attrCheck_iff m k tv).mpr (h1 hk)) hc

theorem processTargets_skip (m : Message) (indices : List ℕ)
    (lats lons : List ℚ) (src : String) (t : VariableSpec)
    (rest : List VariableSpec) (h : attrsMatch m t.fields = false) :
    processTargets m indices lats lons src (t :: rest) =
      processTargets m indices lats lons src rest := by
  simp [processTargets, h]

theorem processTargets_sized (m : Message) (indices : List ℕ)
    (lats lons : List ℚ) (src : String)
    (hsize : m.values.length = lats.length) :
    ∀ catalog : List VariableSpec,
      processTargets m indices lats lons src catalog =
        match catalog.find? (fun t => attrsMatch m t.fields) with
        | some t => (extractRows m t.userName lats lons src indices,
            [t.userName])
        | none => ([], []) := by
  intro catalog
  induction catalog with
  | nil => rfl
  | cons t rest ih =>
    by_cases hm : attrsMatch m t.fields
    · have hfind : List.find? (fun s => attrsMatch m s.fields) (t :: rest) =
          some t := by
        simp [List.find?_cons, hm]
      rw [hfind]
      simp [processTargets, hm, hsize]
    · have hm' : attrsMatch m t.fields = false := by simpa using hm
      have hfind : List.find? (fun s => attrsMatch m s.fields) (t :: rest) =
          List.find? (fun s => attrsMatch m s.fields) rest := by
        simp [List.find?_cons, hm']
      rw [hfind, processTargets_skip m indices lats lons src t rest hm', ih]

/-- **C2** (amended) — A catalog entry matches a decoded message iff every
attribute it declares (excluding the `user_name` key) is defined on the
message and the value read by the reader selected by the expected value's
type equals the expected value exactly; any undefined attribute or failed
typed read rejects that entry and scanning moves to the next entry; and
when the message's flat value array has the grid's length, the first
positionally matching entry wins and no further entries are considered.
(When the lengths differ, scanning continues past a matched entry; see the
counterexample.) -/
theorem c2_matching_amended :
    (∀ (m : Message) (fields : List (String × TVal)),
      attrsMatch m fields = true ↔
        ∀ p ∈ fields, p.1 ≠ "user_name" → attrOk m p.1 p.2) ∧
    (∀ (m : Message) (indices : List ℕ) (lats lons : List ℚ) (src : String)
       (t : VariableSpec) (rest : List VariableSpec),
      attrsMatch m t.fields = false →
      processTargets m indices lats lons src (t :: rest) =
        processTargets m indices lats lons src rest) ∧
    (∀ (m : Message) (indices : List ℕ) (lats lons : List ℚ) (src : String)
       (catalog : List VariableSpec), m.values.length = lats.length →
      processTargets m indices lats lons src catalog =
        match catalog.find? (fun t => attrsMatch m t.fields) with
        | some t => (extractRows m t.userName lats lons src indices,
            [t.userName])
        | none => ([], [])) :=
  ⟨attrsMatch_iff,
   processTargets_skip,
   fun m indices lats lons src catalog hsize =>
     processTargets_sized m indices lats lons src hsize catalog⟩

/-- A message with no defined attributes, no readable values and an empty
flat value array. -/
def m2 : Message :=
  ⟨fun _ => false, fun _ => none, fun _ => none, fun _ => none, [], 0, 0, 0⟩

def specA : VariableSpec := ⟨"a", []⟩

def specB : VariableSpec := ⟨"b", []⟩

/-- **C2** (counterexample) — The claim says no further catalog entries are
considered after the first positional match. With a flat value array whose
length differs from the grid's, the `continue` at src/core/ingest.py:158
skips the `break`, so a second entry is also scanned and declared matched:
both user names are recorded for one message. -/
theorem c2_first_match_counterexample :
    attrsMatch m2 specA.fields = true ∧
    (processTargets m2 [] [(0 : ℚ)] [(0 : ℚ)] "s" [specA, specB]).2 =
      ["a", "b"] ∧
    ¬((processTargets m2 [] [(0 : ℚ)] [(0 : ℚ)] "s" [specA, specB]).2.length ≤ 1) :=
  ⟨rfl, rfl, by decide⟩

/-- Witness for the amended C2: with matching value-array and grid lengths,
the first matching entry is the only one recorded. -/
theorem c2_matching_amended_witness :
    attrsMatch m2 specA.fields = true ∧
    processTargets m2 [] [] [] "s" [specA, specB] =
      (extractRows m2 "a" [] [] "s" [], ["a"]) := by
  refine ⟨(c2_matching_amended.1 m2 specA.fields).mpr ?_, ?_⟩
  · intro p hp
    cases hp
  · rw [c2_matching_amended.2.2 m2 [] [] [] "s" [specA, specB] rfl]
    rfl

theorem get?_eq_some_getD {α : Type} (l : List α) (n : ℕ) (d : α)
    (h : n < l.length) : l.get? n = some (l.getD n d) := by
  rw [List.getD_eq_getElem?_getD, List.get?_eq_getElem?,
    List.getElem?_eq_getElem h]
  rfl

theorem processTargets_mismatch_rows (m : Message) (indices : List ℕ)
    (lats lons : List ℚ) (src : String)
    (hsize : m.values.length ≠ lats.length) :
    ∀ catalog : List VariableSpec,
      (processTargets m indices lats lons src catalog).1 = [] := by
  intro catalog
  induction catalog with
  | nil => rfl
  | cons t rest ih =>
    by_cases hm : attrsMatch m t.fields
    · simp only [processTargets, hm, if_true, if_pos hsize]
      exact ih
    · have hm' : attrsMatch m t.fields = false := by simpa using hm
      rw [processTargets_skip m indices lats lons src t rest hm']
      exact ih

theorem extractRows_filterMap (m : Message) (name : String)
    (lats lons : List ℚ) (src : String)
    (hv : m.values.length = lats.length) (hl : lons.length = lats.length) :
    ∀ indices : List ℕ, (∀ i ∈ indices, i < lats.length) →
      extractRows m name lats lons src indices =
        indices.filterMap (fun idx =>
          (m.values.getD idx none).map (fun v =>
            ⟨validTimeUtc m, runTimeUtc m, lats.getD idx 0, lons.getD idx 0,
              name, v, src⟩)) := by
  intro indices
  induction indices with
  | nil => intro _; rfl
  | cons idx rest ih =>
    intro hbound
    have hidx : idx < lats.length := hbound idx (List.mem_cons_self idx rest)
    have hla := get?_eq_some_getD lats idx 0 hidx
    have hlo := get?_eq_some_getD lons idx 0 (hl ▸ hidx)
    have hva := get?_eq_some_getD m.values idx none (hv ▸ hidx)
    have hrest := ih (fun i hi => hbound i (List.mem_cons_of_mem idx hi))
    rw [List.filterMap_cons]
    cases hvd : m.values.getD idx none with
    | none =>
      rw [hvd] at hva
      simp only [extractRows, hla, hlo, hva, hvd, Option.map_none']
      exact hrest
    | some v =>
      rw [hvd] at hva
      simp only [extractRows, hla, hlo, hva, hvd, Option.map_some']
      rw [hrest]

/-- **C6** — Extraction emits a row for target point `i` of a matched
message iff the message's flat value array has the same length as the
grid's flat coordinate arrays and the value at the resolved nearest index
for `i` is not NaN: on a length mismatch zero rows are emitted for the
whole message without raising, and a NaN value at a resolved index is
silently dropped (no row, no sentinel). -/
theorem c6_row_emission :
    (∀ (m : Message) (indices : List ℕ) (lats lons : List ℚ) (src : String)
       (catalog : List VariableSpec),
      m.values.length ≠ lats.length →
      (processTargets m indices lats lons src catalog).1 = []) ∧
    (∀ (m : Message) (name : String) (indices : List ℕ) (lats lons : List ℚ)
       (src : String),
      m.values.length = lats.length → lons.length = lats.length →
      (∀ i ∈ indices, i < lats.length) →
      extractRows m name lats lons src indices =
        indices.filterMap (fun idx =>
          (m.values.getD idx none).map (fun v =>
            ⟨validTimeUtc m, runTimeUtc m, lats.getD idx 0, lons.getD idx 0,
              name, v, src⟩))) :=
  ⟨fun m indices lats lons src catalog hsize =>
     processTargets_mismatch_rows m indices lats lons src hsize catalog,
   fun m name indices lats lons src hv hl hbound =>
     extractRows_filterMap m name lats lons src hv hl indices hbound⟩

/-- A message whose value array holds one real value and one NaN. -/
def m6 : Message :=
  ⟨fun _ => false, fun _ => none, fun _ => none, fun _ => none,
    [some 1, none], 0, 0, 0⟩

/-- Witness for C6: with matching lengths, index 0 (value 1) produces a row
and index 1 (NaN) is dropped; with a mismatched value array, zero rows. -/
theorem c6_row_emission_witness :
    extractRows m6 "t" [(0 : ℚ), 0] [(0 : ℚ), 0] "s" [0, 1] =
      [0, 1].filterMap (fun idx =>
        (m6.values.getD idx none).map (fun v =>
          ⟨validTimeUtc m6, runTimeUtc m6, ([(0 : ℚ), 0]).getD idx 0,
            ([(0 : ℚ), 0]).getD idx 0, "t", v, "s"⟩)) ∧
    (processTargets m2 [] [(0 : ℚ)] [(0 : ℚ)] "s" [specA, specB]).1 = [] :=
  ⟨c6_row_emission.2 m6 "t" [0, 1] [0, 0] [0, 0] "s" rfl rfl
      (by intro i hi; fin_cases hi <;> decide),
   c6_row_emission.1 m2 [] [(0 : ℚ)] [(0 : ℚ)] "s" [specA, specB]
      (by decide)⟩

theorem processTargets_found_mem (m : Message) (indices : List ℕ)
    (lats lons : List ℚ) (src : String) :
    ∀ (catalog : List VariableSpec) (t : VariableSpec),
      catalog.find? (fun s => attrsMatch m s.fields) = some t →
      t.userName ∈ (processTargets m indices lats lons src catalog).2 := by
  intro catalog
  induction catalog with
  | nil => intro t h; cases h
  | cons s rest ih =>
    intro t h
    by_cases hm : attrsMatch m s.fields
    · have hfind : List.find? (fun u => attrsMatch m u.fields) (s :: rest) =
          some s := by
        simp [List.find?_cons, hm]
      rw [hfind] at h
      obtain rfl := Option.some.inj h
      by_cases hsize : m.values.length ≠ lats.length
      · simp only [processTargets, hm, if_true, if_pos hsize]
        exact List.mem_cons_self _ _
      · simp only [processTargets, hm, if_true, if_neg hsize]
        exact List.mem_singleton.mpr rfl
    · have hm' : attrsMatch m s.fields = false := by simpa using hm
      have hfind : List.find? (fun u => attrsMatch m u.fields) (s :: rest) =
          List.find? (fun u => attrsMatch m u.fields) rest := by
        simp [List.find?_cons, hm']
      rw [hfind] at h
      rw [processTargets_skip m indices lats lons src s rest hm']
      exact ih t h

theorem extractMessages_cons_msg (catalog : List VariableSpec)
    (indices : List ℕ) (lats lons : List ℚ) (src : String) (m : Message)
    (rest : List MsgEvent) :
    extractMessages catalog indices lats lons src (MsgEvent.msg m :: rest) =
      match extractMessages catalog indices lats lons src rest with
      | .ok (rows, n, found) =>
        .ok ((processTargets m indices lats lons src catalog).1 ++ rows,
          n + 1, (processTargets m indices lats lons src catalog).2 ++ found)
      | .error e => .error e := rfl

theorem extractMessages_cons_err (catalog : List VariableSpec)
    (indices : List ℕ) (lats lons : List ℚ) (src : String)
    (rest : List MsgEvent) :
    extractMessages catalog indices lats lons src (MsgEvent.err :: rest) =
      .error () := rfl

theorem extractMessages_mem_found (catalog : List VariableSpec)
    (indices : List ℕ) (lats lons : List ℚ) (src : String) :
    ∀ (pre post : List MsgEvent) (m : Message) (rows : List Row) (n : ℕ)
      (found : List String),
      extractMessages catalog indices lats lons src
        (pre ++ MsgEvent.msg m :: post) = .ok (rows, n, found) →
      ∀ x ∈ (processTargets m indices lats lons src catalog).2, x ∈ found := by
  intro pre
  induction pre with
  | nil =>
    intro post m rows n found h x hx
    rw [List.nil_append, extractMessages_cons_msg] at h
    cases hrest : extractMessages catalog indices lats lons src post with
    | error e => rw [hrest] at h; cases h
    | ok o =>
      obtain ⟨r1, n1, f1⟩ := o
      rw [hrest] at h
      have hfound : (processTargets m indices lats lons src catalog).2 ++
          f1 = found := by
        injection h with h1
        exact congrArg (fun p => p.2.2) h1
      rw [← hfound]
      exact List.mem_append_left _ hx
  | cons ev pre ih =>
    intro post m rows n found h x hx
    cases ev with
    | err =>
      rw [List.cons_append, extractMessages_cons_err] at h
      cases h
    | msg m' =>
      rw [List.cons_append, extractMessages_cons_msg] at h
      cases hrest : extractMessages catalog indices lats lons src
          (pre ++ MsgEvent.msg m :: post) with
      | error e => rw [hrest] at h; cases h
      | ok o =>
        obtain ⟨r1, n1, f1⟩ := o
        rw [hrest] at h
        have hfound : (processTargets m' indices lats lons src catalog).2 ++
            f1 = found := by
          injection h with h1
          exact congrArg (fun p => p.2.2) h1
        rw [← hfound]
        exact List.mem_append_right _ (ih post m r1 n1 f1 hrest x hx)

/-- **C10** — When a message matches a catalog entry, the entry's userName
is recorded in the variables-found set independently of value extraction:
it is present in the per-message found list whenever the entry is the first
positional match, and it is present in the per-file found set of any
successful extraction whose events include that message — even when zero
rows are extracted for it (size mismatch or all-NaN values). -/
theorem c10_found_before_extraction (m : Message) (indices : List ℕ)
    (lats lons : List ℚ) (src : String) (catalog : List VariableSpec)
    (t : VariableSpec)
    (hfind : catalog.find? (fun s => attrsMatch m s.fields) = some t) :
    t.userName ∈ (processTargets m indices lats lons src catalog).2 ∧
    (∀ (pre post : List MsgEvent) (rows : List Row) (n : ℕ)
       (found : List String),
      extractMessages catalog indices lats lons src
        (pre ++ MsgEvent.msg m :: post) = .ok (rows, n, found) →
      t.userName ∈ found) :=
  ⟨processTargets_found_mem m indices lats lons src catalog t hfind,
   fun pre post rows n found h =>
     extractMessages_mem_found catalog indices lats lons src pre post m rows
       n found h t.userName
       (processTargets_found_mem m indices lats lons src catalog t hfind)⟩

def specV : VariableSpec := ⟨"v", []⟩

/-- Witness for C10: a matched message whose value array mismatches the
grid (zero rows) still records its userName, per-message and per-file. -/
theorem c10_found_before_extraction_witness :
    "v" ∈ (processTargets m2 [0] [(0 : ℚ)] [(0 : ℚ)] "s" [specV]).2 ∧
    (processTargets m2 [0] [(0 : ℚ)] [(0 : ℚ)] "s" [specV]).1 = [] ∧
    "v" ∈ (["v"] : List String) := by
  have h := c10_found_before_extraction m2 [0] [(0 : ℚ)] [(0 : ℚ)] "s"
    [specV] specV rfl
  exact ⟨h.1, rfl,
    h.2 [] [] [] 1 ["v"] rfl⟩

theorem ingestLoop_length (nq : NearestQuery) (fetch : String → Fetch)
    (targets : List Point3) (catalog : List VariableSpec) (bucket : String) :
    ∀ (keys : List String) (cache : GridCache) (cnt : Counters),
      ((ingestLoop nq fetch targets catalog bucket keys cache cnt).1).length =
        keys.length := by
  intro keys
  induction keys with
  | nil => intro cache cnt; rfl
  | cons k ks ih =>
    intro cache cnt
    simp only [ingestLoop, List.length_cons]
    rw [ih]

theorem processGribFile_extract_error (nq : NearestQuery)
    (targets : List Point3) (catalog : List VariableSpec) (gf : GridFile)
    (events : List MsgEvent) (c : GridCache) (src : String) (idxs : List ℕ)
    (lats lons : List ℚ)
    (hi : (getGridDetails nq gf targets c).indices = some idxs)
    (hla : (getGridDetails nq gf targets c).lats = some lats)
    (hlo : (getGridDetails nq gf targets c).lons = some lons)
    (herr : extractMessages catalog idxs lats lons src events = .error ()) :
    processGribFile nq (Fetch.ok ⟨some gf, events⟩) targets catalog c src =
      (⟨0, 0, .processing_error, []⟩,
        (getGridDetails nq gf targets c).cache, []) := by
  unfold processGribFile
  simp only [hi, hla, hlo, herr]

/-- **C3** (amended) — If an exception escapes the message
iteration/matching/extraction loop for an object, that object's status is
`processing_error` and the run continues with the next object; however the
rows already extracted from earlier messages of the same object are
discarded (the re-raise at src/core/ingest.py:185-187 loses the local row
list), so nothing is submitted to the batched persistence insert. -/
theorem c3_processing_error_amended (nq : NearestQuery)
    (targets : List Point3) (catalog : List VariableSpec) (gf : GridFile)
    (events : List MsgEvent) (c : GridCache) (src : String) (idxs : List ℕ)
    (lats lons : List ℚ)
    (hi : (getGridDetails nq gf targets c).indices = some idxs)
    (hla : (getGridDetails nq gf targets c).lats = some lats)
    (hlo : (getGridDetails nq gf targets c).lons = some lons)
    (herr : extractMessages catalog idxs lats lons src events = .error ()) :
    processGribFile nq (Fetch.ok ⟨some gf, events⟩) targets catalog c src =
      (⟨0, 0, .processing_error, []⟩,
        (getGridDetails nq gf targets c).cache, []) ∧
    (∀ (fetch : String → Fetch) (bucket : String) (keys : List String)
       (cache0 : GridCache) (cnt : Counters),
      ((ingestLoop nq fetch targets catalog bucket keys cache0 cnt).1).length =
        keys.length) :=
  ⟨processGribFile_extract_error nq targets catalog gf events c src idxs
      lats lons hi hla hlo herr,
   fun fetch bucket keys cache0 cnt =>
     ingestLoop_length nq fetch targets catalog bucket keys cache0 cnt⟩

/-- A message matching `specV` whose single value would produce one row. -/
def m3 : Message :=
  ⟨fun _ => false, fun _ => none, fun _ => none, fun _ => none,
    [some 5], 0, 0, 0⟩

def gf3 : GridFile := ⟨⟨1, 1, 0, 0, 0⟩, [10], [20]⟩

def pt0 : Point3 := (0, 0, 0)

theorem gf3_lons_adjust : gf3.lons.map adjustLon = [(20 : ℚ)] := by
  show [adjustLon 20] = [(20 : ℚ)]
  unfold adjustLon
  norm_num

theorem gf3_resolution :
    (getGridDetails nq0 gf3 [pt0] []).indices = some [0] ∧
    (getGridDetails nq0 gf3 [pt0] []).lats = some [(10 : ℚ)] ∧
    (getGridDetails nq0 gf3 [pt0] []).lons = some [(20 : ℚ)] := by
  have h1 := getGridDetails_miss_valid nq0 [pt0] gf3 [] rfl (by decide)
  refine ⟨?_, ?_, ?_⟩
  · rw [h1, gf3_lons_adjust]
    rfl
  · rw [h1]
    rfl
  · rw [h1, gf3_lons_adjust]

/-- **C3** (counterexample) — A first message yields one extractable row,
then an exception escapes on the second message: the claim says the row is
still submitted to persistence, but the object's submitted batch is empty
(status `processing_error`). -/
theorem c3_partial_rows_counterexample :
    extractMessages [specV] [0] [(10 : ℚ)] [(20 : ℚ)] "s3://b/k"
        [MsgEvent.msg m3] =
      .ok ([⟨validTimeUtc m3, runTimeUtc m3, 10, 20, "v", 5, "s3://b/k"⟩],
        1, ["v"]) ∧
    extractMessages [specV] [0] [(10 : ℚ)] [(20 : ℚ)] "s3://b/k"
        [MsgEvent.msg m3, MsgEvent.err] = .error () ∧
    processGribFile nq0 (Fetch.ok ⟨some gf3, [MsgEvent.msg m3, MsgEvent.err]⟩)
        [pt0] [specV] [] "s3://b/k" =
      (⟨0, 0, .processing_error, []⟩,
        (getGridDetails nq0 gf3 [pt0] []).cache, []) := by
  obtain ⟨hi, hla, hlo⟩ := gf3_resolution
  exact ⟨rfl, rfl,
    processGribFile_extract_error nq0 [pt0] [specV] gf3
      [MsgEvent.msg m3, MsgEvent.err] [] "s3://b/k" [0] [10] [20]
      hi hla hlo rfl⟩

/-- Witness for the amended C3 at the concrete failing object. -/
theorem c3_processing_error_amended_witness :
    processGribFile nq0 (Fetch.ok ⟨some gf3, [MsgEvent.msg m3, MsgEvent.err]⟩)
        [pt0] [specV] [] "s3://b/k" =
      (⟨0, 0, .processing_error, []⟩,
        (getGridDetails nq0 gf3 [pt0] []).cache, []) ∧
    ((ingestLoop nq0 (fun _ => Fetch.noSuchKey) [pt0] [specV] "b" ["k"] []
        zeroCounters).1).length = 1 := by
  obtain ⟨hi, hla, hlo⟩ := gf3_resolution
  have h := c3_processing_error_amended nq0 [pt0] [specV] gf3
    [MsgEvent.msg m3, MsgEvent.err] [] "s3://b/k" [0] [10] [20]
    hi hla hlo rfl
  exact ⟨h.1, h.2 (fun _ => Fetch.noSuchKey) "b" ["k"] [] zeroCounters⟩

/-- **C4** — An absent object (`NoSuchKey`) yields a per-object result with
status `not_found`, zero rows and zero messages scanned; any other typed
transport error from the blob-store client yields `download_error`, also
with zero rows and messages; in both cases nothing is submitted, the cache
is untouched, and the loop still produces one result per planned key. -/
theorem c4_fetch_failure_classification (nq : NearestQuery)
    (targets : List Point3) (catalog : List VariableSpec)
    (cache : GridCache) (srcPath : String) :
    processGribFile nq Fetch.noSuchKey targets catalog cache srcPath =
      (⟨0, 0, .not_found, []⟩, cache, []) ∧
    processGribFile nq Fetch.clientError targets catalog cache srcPath =
      (⟨0, 0, .download_error, []⟩, cache, []) ∧
    (∀ (fetch : String → Fetch) (bucket : String) (keys : List String)
       (cnt : Counters),
      ((ingestLoop nq fetch targets catalog bucket keys cache cnt).1).length =
        keys.length) :=
  ⟨rfl, rfl, fun fetch bucket keys cnt =>
    ingestLoop_length nq fetch targets catalog bucket keys cache cnt⟩

def d0 : Date := ⟨2015, 3, 23⟩

/-- **C8** (counterexample) — The claim says an empty key plan is a fatal
configuration error reported to the caller, never accepted as a successful
empty run. The code prints a warning and calls `sys.exit(0)`
(src/core/ingest.py:358-360): the run does abort before any fetch, but the
process exit status is 0 — the success signal — not an error status (the
malformed-run-date path uses `sys.exit(1)` by contrast). -/
theorem c8_empty_plan_counterexample :
    planKeys d0 48 "06" "wrfsfc" 1 0 = [] ∧
    ingestRun nq0 (fun _ => Fetch.noSuchKey) [] [] "noaa-hrrr-bdp-pds" d0 48
      "06" "wrfsfc" 1 0 = (IngestOutcome.exited 0, 0) ∧
    ¬ signalsError (IngestOutcome.exited 0) :=
  ⟨rfl, rfl, fun h => h rfl⟩

/-- **C8** (amended) — When the planned key set is empty, the run aborts
before any object is fetched (zero download attempts), with a warning
printed; however the process exits with status 0, the same success signal
as a normal completion, rather than an error status. -/
theorem c8_empty_plan_amended (nq : NearestQuery) (fetch : String → Fetch)
    (targets : List Point3) (catalog : List VariableSpec) (bucket : String)
    (rd : Date) (nh : ℕ) (cy ft : String) (fs fe : ℕ)
    (h : planKeys rd nh cy ft fs fe = []) :
    ingestRun nq fetch targets catalog bucket rd nh cy ft fs fe =
      (IngestOutcome.exited 0, 0) := by
  unfold ingestRun
  rw [h]
  rfl

/-- Witness for the amended C8 at a concrete empty-plan configuration
(forecast-hour range 1..0). -/
theorem c8_empty_plan_amended_witness :
    ingestRun nq0 (fun _ => Fetch.noSuchKey) [] [] "noaa-hrrr-bdp-pds" d0 48
      "06" "wrfsfc" 1 0 = (IngestOutcome.exited 0, 0) :=
  c8_empty_plan_amended nq0 (fun _ => Fetch.noSuchKey) [] []
    "noaa-hrrr-bdp-pds" d0 48 "06" "wrfsfc" 1 0 rfl

theorem fileStatus_cases (st : FileStatus) :
    st = .processed ∨ st = .skipped_no_grid ∨ st = .not_found ∨
    st = .download_error ∨ st = .processing_error := by
  cases st <;> simp

theorem stepCounters_invariants (c : Counters) (r : FileResult) :
    (stepCounters c r).notFound + (stepCounters c r).downloadErrors +
        (stepCounters c r).downloaded =
      c.notFound + c.downloadErrors + c.downloaded + 1 ∧
    (stepCounters c r).downloaded +
        (c.processedOk + c.skippedNoGrid + c.processingErrors) =
      c.downloaded + ((stepCounters c r).processedOk +
        (stepCounters c r).skippedNoGrid +
        (stepCounters c r).processingErrors) := by
  rcases r with ⟨sc, ri, st, fd⟩
  cases st <;> simp [stepCounters] <;> omega

theorem ingestLoop_cons_results (nq : NearestQuery) (fetch : String → Fetch)
    (targets : List Point3) (catalog : List VariableSpec) (bucket : String)
    (k : String) (ks : List String) (cache : GridCache) (cnt : Counters) :
    (ingestLoop nq fetch targets catalog bucket (k :: ks) cache cnt).1 =
      (processGribFile nq (fetch k) targets catalog cache
        (mkSrcPath bucket k)).1 ::
      (ingestLoop nq fetch targets catalog bucket ks
        (processGribFile nq (fetch k) targets catalog cache
          (mkSrcPath bucket k)).2.1
        (stepCounters cnt (processGribFile nq (fetch k) targets catalog cache
          (mkSrcPath bucket k)).1)).1 := rfl

theorem ingestLoop_cons_counters (nq : NearestQuery) (fetch : String → Fetch)
    (targets : List Point3) (catalog : List VariableSpec) (bucket : String)
    (k : String) (ks : List String) (cache : GridCache) (cnt : Counters) :
    (ingestLoop nq fetch targets catalog bucket (k :: ks) cache cnt).2.1 =
      (ingestLoop nq fetch targets catalog bucket ks
        (processGribFile nq (fetch k) targets catalog cache
          (mkSrcPath bucket k)).2.1
        (stepCounters cnt (processGribFile nq (fetch k) targets catalog cache
          (mkSrcPath bucket k)).1)).2.1 := rfl

theorem ingestLoop_status_mem (nq : NearestQuery) (fetch : String → Fetch)
    (targets : List Point3) (catalog : List VariableSpec) (bucket : String) :
    ∀ (keys : List String) (cache : GridCache) (cnt : Counters)
      (r : FileResult),
      r ∈ (ingestLoop nq fetch targets catalog bucket keys cache cnt).1 →
      r.status = .processed ∨ r.status = .skipped_no_grid ∨
      r.status = .not_found ∨ r.status = .download_error ∨
      r.status = .processing_error := by
  intro keys
  induction keys with
  | nil => intro cache cnt r hr; cases hr
  | cons k ks ih =>
    intro cache cnt r hr
    rw [ingestLoop_cons_results] at hr
    rcases List.mem_cons.mp hr with rfl | hmem
    · exact fileStatus_cases _
    · exact ih _ _ r hmem

theorem ingestLoop_counts (nq : NearestQuery) (fetch : String → Fetch)
    (targets : List Point3) (catalog : List VariableSpec) (bucket : String) :
    ∀ (keys : List String) (cache : GridCache) (cnt : Counters),
      (ingestLoop nq fetch targets catalog bucket keys cache cnt).2.1.notFound +
        (ingestLoop nq fetch targets catalog bucket keys cache cnt).2.1.downloadErrors +
        (ingestLoop nq fetch targets catalog bucket keys cache cnt).2.1.downloaded =
        cnt.notFound + cnt.downloadErrors + cnt.downloaded + keys.length ∧
      (ingestLoop nq fetch targets catalog bucket keys cache cnt).2.1.downloaded +
        (cnt.processedOk + cnt.skippedNoGrid + cnt.processingErrors) =
        cnt.downloaded +
        ((ingestLoop nq fetch targets catalog bucket keys cache cnt).2.1.processedOk +
          (ingestLoop nq fetch targets catalog bucket keys cache cnt).2.1.skippedNoGrid +
          (ingestLoop nq fetch targets catalog bucket keys cache cnt).2.1.processingErrors) := by
  intro keys
  induction keys with
  | nil => intro cache cnt; exact ⟨rfl, rfl⟩
  | cons k ks ih =>
    intro cache cnt
    rw [ingestLoop_cons_counters]
    obtain ⟨h1, h2⟩ := stepCounters_invariants cnt
      (processGribFile nq (fetch k) targets catalog cache
        (mkSrcPath bucket k)).1
    obtain ⟨h3, h4⟩ := ih
      (processGribFile nq (fetch k) targets catalog cache
        (mkSrcPath bucket k)).2.1
      (stepCounters cnt (processGribFile nq (fetch k) targets catalog cache
        (mkSrcPath bucket k)).1)
    constructor
    · rw [h3, h1]
      simp [List.length_cons]
      omega
    · omega

/-- **C9** — After an uninterrupted per-key loop, every planned key has
produced exactly one per-object result, every result's status is one of
the five enumerated values, and the summary counters satisfy
`files_not_found + files_with_download_errors + files_successfully_downloaded
= number of planned keys` and `files_successfully_downloaded =
files_processed_ok + files_skipped_no_grid + files_with_processing_errors`. -/
theorem c9_summary_counters (nq : NearestQuery) (fetch : String → Fetch)
    (targets : List Point3) (catalog : List VariableSpec) (bucket : String)
    (keys : List String) (cache : GridCache) :
    ((ingestLoop nq fetch targets catalog bucket keys cache zeroCounters).1).length =
      keys.length ∧
    (∀ r ∈ (ingestLoop nq fetch targets catalog bucket keys cache zeroCounters).1,
      r.status = FileStatus.processed ∨ r.status = FileStatus.skipped_no_grid ∨
      r.status = FileStatus.not_found ∨ r.status = FileStatus.download_error ∨
      r.status = FileStatus.processing_error) ∧
    (ingestLoop nq fetch targets catalog bucket keys cache zeroCounters).2.1.notFound +
      (ingestLoop nq fetch targets catalog bucket keys cache zeroCounters).2.1.downloadErrors +
      (ingestLoop nq fetch targets catalog bucket keys cache zeroCounters).2.1.downloaded =
      keys.length ∧
    (ingestLoop nq fetch targets catalog bucket keys cache zeroCounters).2.1.downloaded =
      (ingestLoop nq fetch targets catalog bucket keys cache zeroCounters).2.1.processedOk +
      (ingestLoop nq fetch targets catalog bucket keys cache zeroCounters).2.1.skippedNoGrid +
      (ingestLoop nq fetch targets catalog bucket keys cache zeroCounters).2.1.processingErrors := by
  obtain ⟨h1, h2⟩ := ingestLoop_counts nq fetch targets catalog bucket keys
    cache zeroCounters
  have hz1 : zeroCounters.notFound = 0 := rfl
  have hz2 : zeroCounters.downloadErrors = 0 := rfl
  have hz3 : zeroCounters.downloaded = 0 := rfl
  have hz4 : zeroCounters.processedOk = 0 := rfl
  have hz5 : zeroCounters.skippedNoGrid = 0 := rfl
  have hz6 : zeroCounters.processingErrors = 0 := rfl
  refine ⟨ingestLoop_length nq fetch targets catalog bucket keys cache
      zeroCounters,
    fun r hr => ingestLoop_status_mem nq fetch targets catalog bucket keys
      cache zeroCounters r hr, ?_, ?_⟩
  · omega
  · omega

/-- Witness for C9 at a single-key run whose fetch reports the object
absent. -/
theorem c9_summary_counters_witness :
    ((ingestLoop nq0 (fun _ => Fetch.noSuchKey) [] [] "b" ["k"] []
        zeroCounters).1).length = 1 ∧
    (ingestLoop nq0 (fun _ => Fetch.noSuchKey) [] [] "b" ["k"] []
        zeroCounters).2.1.notFound +
      (ingestLoop nq0 (fun _ => Fetch.noSuchKey) [] [] "b" ["k"] []
        zeroCounters).2.1.downloadErrors +
      (ingestLoop nq0 (fun _ => Fetch.noSuchKey) [] [] "b" ["k"] []
        zeroCounters).2.1.downloaded = 1 := by
  have h := c9_summary_counters nq0 (fun _ => Fetch.noSuchKey) [] [] "b"
    ["k"] []
  exact ⟨h.1, h.2.2.1⟩

end Zekrom
